import Mathlib

/-!
Shallow embedding of the audiobookshelf-tools pipeline
(scanner.py, tracker.py, organizer.py, ai_client.py, main.py),
together with proofs settling the frozen claims about its specification.

Python values flowing through the metadata pipeline are modelled by an
inductive type of dynamic values; Python dicts are association lists that
preserve insertion order (updates replace in place, new keys append), which
matches CPython dict semantics.
-/

/-- Dynamic Python value as it occurs in metadata documents: None, strings,
integers, dicts (insertion-ordered association lists) and sets (the result
type relevant for eval of a brace expression that is not a dict literal). -/
inductive PyVal where
  | none
  | str (s : String)
  | int (n : Int)
  | dict (entries : List (String × PyVal))
  | set (elems : List PyVal)

/-- Lookup in a Python dict (first matching key). -/
def dictLookup : List (String × α) → String → Option α
  | [], _ => Option.none
  | (k', v') :: rest, k => if k' = k then Option.some v' else dictLookup rest k

/-- Python dict assignment d[k] = v: replaces the value in place if the key
exists, otherwise appends the pair at the end. -/
def dictInsert : List (String × α) → String → α → List (String × α)
  | [], k, v => [(k, v)]
  | (k', v') :: rest, k, v =>
      if k' = k then (k, v) :: rest else (k', v') :: dictInsert rest k v

/-- Folding key/value pairs into a dict, as the ** splat in a dict literal
does after the literal keys have been laid down. -/
def mergeExtra (base extra : List (String × PyVal)) : List (String × PyVal) :=
  extra.foldl (fun d kv => dictInsert d kv.1 kv.2) base

/-- Python v.get(k, d): total on dicts, raises AttributeError on any other
value (strings, ints, None, sets have no .get method). -/
def pyGet2 (v : PyVal) (k : String) (d : PyVal) : Except String PyVal :=
  match v with
  | PyVal.dict entries => Except.ok ((dictLookup entries k).getD d)
  | _ => Except.error "AttributeError"

/-- Python truthiness of the embedded values. -/
def truthy : PyVal → Bool
  | PyVal.none => false
  | PyVal.str s => !s.isEmpty
  | PyVal.int n => n != 0
  | PyVal.dict entries => !entries.isEmpty
  | PyVal.set elems => !elems.isEmpty

/-- Python equality test v == s against a string literal: true only for the
equal string (values of other types never equal a str). -/
def pyEqStr (v : PyVal) (s : String) : Bool :=
  match v with
  | PyVal.str t => t = s
  | _ => false

/-- Python str(v) as used inside the f-strings of the organizer; the claims
only exercise it on strings and integers (the renderings of None, dicts and
sets are irrelevant placeholders). -/
def pyStr : PyVal → String
  | PyVal.str s => s
  | PyVal.int n => toString n
  | PyVal.none => "None"
  | PyVal.dict _ => "<dict>"
  | PyVal.set _ => "<set>"

/-- s.replace(a, b) for one-character patterns is a character map. -/
def replaceChar (a b : Char) (l : List Char) : List Char :=
  l.map (fun c => if c = a then b else c)

/-- Python str.strip(): drop leading and trailing whitespace. -/
def pyStripChars (l : List Char) : List Char :=
  ((l.dropWhile Char.isWhitespace).reverse.dropWhile Char.isWhitespace).reverse

/-- organizer.sanitize: s.replace("/", "-").replace(":", "-").strip(). -/
def sanitize (s : String) : String :=
  String.mk (pyStripChars (replaceChar ':' '-' (replaceChar '/' '-' s.data)))

/-- Python str.strip() on a whole string. -/
def pyStripStr (s : String) : String :=
  String.mk (pyStripChars s.data)

/-- sanitize applied to a dynamic value: Python sanitize calls .replace on
its argument, which raises AttributeError unless the value is a string. -/
def sanitizeVal : PyVal → Except String String
  | PyVal.str s => Except.ok (sanitize s)
  | _ => Except.error "AttributeError"

/-- parts[-1] += suffix on a Python list (the organizer only reaches this
with a non-empty parts list). -/
def appendLast (parts : List String) (suffix : String) : List String :=
  match parts with
  | [] => []
  | [p] => [p ++ suffix]
  | p :: rest => p :: appendLast rest suffix

/-- organizer.format_title_folder, line by line.  Exceptions raised by
attribute access on non-dict values (notably .get on a string title)
propagate through the Except monad exactly where Python would raise. -/
def format_title_folder (meta : PyVal) : Except String String := do
  let series_sequence ← pyGet2 meta "series_sequence" PyVal.none
  let series_index_alt ← pyGet2 meta "series_index" PyVal.none
  let series_index := if truthy series_sequence then series_sequence else series_index_alt
  let parts1 : List String :=
    if truthy series_index then ["Vol " ++ pyStr series_index] else []
  let publish_year ← pyGet2 meta "publish_year" PyVal.none
  let year_alt ← pyGet2 meta "year" PyVal.none
  let year := if truthy publish_year then publish_year else year_alt
  let parts2 := if truthy year then parts1 ++ [pyStr year] else parts1
  let titleObj ← pyGet2 meta "title" (PyVal.dict [])
  let title_main_inner ← pyGet2 titleObj "main" PyVal.none
  let title_raw ← pyGet2 meta "title" PyVal.none
  let title_main := if truthy title_main_inner then title_main_inner else title_raw
  let parts3 ←
    if truthy title_main then do
      let t ← sanitizeVal title_main
      pure (parts2 ++ [t])
    else pure (parts2 ++ ["Untitled"])
  let subtitle ← pyGet2 titleObj "subtitle" PyVal.none
  let parts4 ←
    if truthy subtitle then do
      let sub ← sanitizeVal subtitle
      pure (parts3 ++ [sub])
    else pure parts3
  let narrator ← pyGet2 meta "narrator" PyVal.none
  let parts5 ←
    if truthy narrator then do
      let n ← sanitizeVal narrator
      pure (appendLast parts4 (" \x7b" ++ n ++ "\x7d"))
    else pure parts4
  pure (String.intercalate " - " parts5)

/-- The author-folder computation at the top of organizer.organize_book:
a string author is sanitized directly; otherwise the value is rendered as
"last, first" (f-string on .get results, then strip), then sanitized. -/
def organize_author_folder (metadata : PyVal) : Except String String := do
  let author ← pyGet2 metadata "author" (PyVal.dict [])
  match author with
  | PyVal.str a => pure (sanitize a)
  | other => do
      let lastv ← pyGet2 other "last" (PyVal.str "")
      let firstv ← pyGet2 other "first" (PyVal.str "")
      pure (sanitize (pyStripStr (pyStr lastv ++ ", " ++ pyStr firstv)))

/-- The target-directory path computed by organizer.organize_book before it
creates directories and copies files (paths joined with "/"). -/
def organize_book_target (output_base : String) (metadata : PyVal) : Except String String := do
  let author_folder ← organize_author_folder metadata
  let series ← pyGet2 metadata "series" PyVal.none
  let target ←
    if truthy series then do
      let series_folder ← sanitizeVal series
      pure (output_base ++ "/" ++ author_folder ++ "/" ++ series_folder)
    else pure (output_base ++ "/" ++ author_folder)
  let title_folder ← format_title_folder metadata
  pure (target ++ "/" ++ title_folder)

/-- A tracker entry is a Python dict (tracker.mark_status always stores a
dict literal merged with the extra metadata). -/
abbrev TrackerEntry := List (String × PyVal)

/-- The tracker is the persisted mapping relative_path -> entry. -/
abbrev Tracker := List (String × TrackerEntry)

/-- The in-memory tracker dict together with the persisted tracker.json
document (the pair lets write-through persistence be stated). -/
structure TrackerState where
  mem : Tracker
  disk : Tracker

/-- tracker.get_status: tracker.get(relpath, dict()).get("status"), which is
None both for an absent entry and for an entry without a status field. -/
def get_status (tracker : Tracker) (relpath : String) : PyVal :=
  match dictLookup tracker relpath with
  | Option.some entry => (dictLookup entry "status").getD PyVal.none
  | Option.none => PyVal.none

/-- Field access inside one tracker entry (entry.get(k) after lookup). -/
def trackerField (tracker : Tracker) (relpath k : String) : Option PyVal :=
  match dictLookup tracker relpath with
  | Option.some entry => dictLookup entry k
  | Option.none => Option.none

/-- tracker.mark_status: overwrites the entry for relpath with a dict built
from status, the timestamp datetime.utcnow().isoformat() + "Z" (the clock
reading is the now_iso parameter) and the splatted extra metadata, then
immediately persists the whole tracker via save_tracker (disk := mem). -/
def mark_status (st : TrackerState) (relpath status now_iso : String)
    (metadata : TrackerEntry) : TrackerState :=
  let entry := mergeExtra
    [("status", PyVal.str status), ("timestamp", PyVal.str (now_iso ++ "Z"))] metadata
  let mem := dictInsert st.mem relpath entry
  ⟨mem, mem⟩

/-- Python str.lower() on a character sequence (per-character lowering). -/
def lowerChars (l : List Char) : List Char :=
  l.map Char.toLower

/-- Python str.endswith on character sequences: ext is a suffix of name. -/
def endsWithChars (name ext : List Char) : Bool :=
  List.isPrefixOf ext.reverse name.reverse

/-- scanner.is_audio_file: filename.lower().endswith(tuple of extensions),
with lower and endswith modelled on the character sequence. -/
def is_audio_file (filename : String) : Bool :=
  [".mp3", ".m4a", ".m4b", ".flac", ".ogg", ".aac", ".wav"].any
    (fun ext => endsWithChars (lowerChars filename.data) ext.data)

/-- The fixed extension set of the scanner. -/
def audio_extensions : List String :=
  [".mp3", ".m4a", ".m4b", ".flac", ".ogg", ".aac", ".wav"]

/-- The spec-side reading of the audio test: the lowercased file name ends
with one of the extensions of the fixed set. -/
def hasAudioExtension (filename : String) : Prop :=
  ∃ ext ∈ audio_extensions, endsWithChars (lowerChars filename.data) ext.data = true

/-- Lexicographic comparison of character lists by code point, the order
Python uses when sorting strings. -/
def strLeChars : List Char → List Char → Bool
  | [], _ => true
  | _ :: _, [] => false
  | a :: as, b :: bs => if a = b then strLeChars as bs else decide (a < b)

/-- Python string comparison s1 <= s2 (code-point lexicographic). -/
def strLe (a b : String) : Bool :=
  strLeChars a.data b.data

/-- Insertion into a sorted list of strings (helper for Python sorted). -/
def insertSorted (a : String) : List String → List String
  | [] => [a]
  | b :: rest => if strLe a b then a :: b :: rest else b :: insertSorted a rest

/-- Python sorted() on a list of strings. -/
def sortStrings : List String → List String
  | [] => []
  | a :: rest => insertSorted a (sortStrings rest)

/-- The fields of the record yielded by scanner.scan_input_directory that the
claims are about; the presentation fields derived from the path (full_path,
parent_folder, current_folder, depth) are omitted. -/
structure ScanRecord where
  relative_path : String
  files : List String
  audio_files : List String
deriving DecidableEq

/-- scanner.scan_input_directory over an abstract directory tree: os.walk is
modelled as the list of visited directories, each given by its path relative
to the input root (exactly the os.path.relpath key) and its direct file
names.  A record is yielded only when the audio filter is non-empty; the
files field is the sorted full listing. -/
def scan_input_directory (dirs : List (String × List String)) : List ScanRecord :=
  dirs.filterMap (fun d =>
    let audio_files := d.2.filter is_audio_file
    if audio_files.isEmpty then Option.none
    else Option.some ⟨d.1, sortStrings d.2, audio_files⟩)

/-- Whether the character "{" occurs in the response text (Python: "{" in text). -/
def hasBrace (t : String) : Bool :=
  t.data.contains '\x7b'

/-- ai_client.send_to_ai_and_get_metadata, response handling.  The network
interaction up to obtaining the response body text is the external boundary:
outcome is Except.error for any exception raised while posting, checking the
status or decoding JSON (timeout, network error, HTTP error, non-JSON body),
and Except.ok text for a successfully obtained body text.  Python eval is the
interpreter's, outside this repository, and is passed as the evalPy oracle:
evalPy t is Except.error when eval(t) raises and Except.ok v when it yields
the value v.  The try/except around the whole block converts every raised
exception into the empty dict; a text without "{" also yields the empty
dict; but a text containing "{" whose eval succeeds is returned unchanged. -/
def send_to_ai_and_get_metadata (evalPy : String → Except String PyVal)
    (outcome : Except String String) : PyVal :=
  match outcome with
  | Except.error _ => PyVal.dict []
  | Except.ok text =>
      if hasBrace text then
        match evalPy text with
        | Except.ok v => v
        | Except.error _ => PyVal.dict []
      else PyVal.dict []

/-- One folder as the orchestrator sees it: its tracking key and whether the
.force_process sentinel file exists inside it. -/
structure Book where
  relpath : String
  force : Bool
deriving DecidableEq

/-- Observable side effects of a run: which folders the resolver was invoked
for, which folders organize_book was invoked for, and the mark_status calls
(relative path paired with the recorded status). -/
structure Effects where
  resolved : List String
  organized : List String
  marked : List (String × String)
deriving DecidableEq

/-- No side effects. -/
def emptyEffects : Effects := ⟨[], [], []⟩

/-- Sequential composition of effects. -/
def effApp (a b : Effects) : Effects :=
  ⟨a.resolved ++ b.resolved, a.organized ++ b.organized, a.marked ++ b.marked⟩

/-- Result of processing: tracker state, accumulated effects, and the
uncaught exception that aborted the run, if any. -/
structure Outcome where
  st : TrackerState
  eff : Effects
  err : Option String

/-- main.py's confidence read: ai_metadata.get("confidence", dict()).get("title", "low");
raises when ai_metadata, or a present confidence value, is not a dict. -/
def confTitle (ai : PyVal) : Except String PyVal := do
  let c ← pyGet2 ai "confidence" (PyVal.dict [])
  pyGet2 c "title" (PyVal.str "low")

/-- main.py's loop body for one folder: short-circuit on a previously
recorded processed/skipped status unless the force marker is present, invoke
the resolver, normalize an empty (falsy) result to a skipped mark with
reason "no metadata", gate on confidence unless forced, honour DRY_RUN, and
otherwise organize and mark processed.  resolver gives the value returned by
send_to_ai_and_get_metadata for each relative path.  An uncaught exception
(attribute access on a non-dict, or one raised inside organize_book's path
synthesis) ends the run with err set. -/
def main_step (resolver : String → PyVal) (dry_run : Bool) (now_iso output_path : String)
    (st : TrackerState) (book : Book) : Outcome :=
  let status := get_status st.mem book.relpath
  if !book.force && pyEqStr status "processed" then ⟨st, emptyEffects, Option.none⟩
  else if !book.force && pyEqStr status "skipped" then ⟨st, emptyEffects, Option.none⟩
  else
    let ai := resolver book.relpath
    if !(truthy ai) then
      ⟨mark_status st book.relpath "skipped" now_iso [("reason", PyVal.str "no metadata")],
       ⟨[book.relpath], [], [(book.relpath, "skipped")]⟩, Option.none⟩
    else
      match confTitle ai with
      | Except.error e => ⟨st, ⟨[book.relpath], [], []⟩, Option.some e⟩
      | Except.ok confidence =>
        if !book.force && !(pyEqStr confidence "high" || pyEqStr confidence "very_high") then
          ⟨mark_status st book.relpath "skipped" now_iso [("ai_confidence", confidence)],
           ⟨[book.relpath], [], [(book.relpath, "skipped")]⟩, Option.none⟩
        else if dry_run then
          ⟨st, ⟨[book.relpath], [], []⟩, Option.none⟩
        else
          match organize_book_target output_path ai with
          | Except.error e => ⟨st, ⟨[book.relpath], [book.relpath], []⟩, Option.some e⟩
          | Except.ok _ =>
            ⟨mark_status st book.relpath "processed" now_iso
               [("ai_confidence", confidence), ("output_path", PyVal.str output_path)],
             ⟨[book.relpath], [book.relpath], [(book.relpath, "processed")]⟩, Option.none⟩

/-- main.py's loop over the scanned folders, stopping at the first uncaught
exception. -/
def main_run (resolver : String → PyVal) (dry_run : Bool) (now_iso output_path : String)
    (st : TrackerState) : List Book → Outcome
  | [] => ⟨st, emptyEffects, Option.none⟩
  | b :: rest =>
    let o := main_step resolver dry_run now_iso output_path st b
    match o.err with
    | Option.some e => ⟨o.st, o.eff, Option.some e⟩
    | Option.none =>
      let r := main_run resolver dry_run now_iso output_path o.st rest
      ⟨r.st, effApp o.eff r.eff, r.err⟩

/-- The already-decided statuses that short-circuit a folder. -/
def decided (v : PyVal) : Bool :=
  pyEqStr v "processed" || pyEqStr v "skipped"

/-- A sample resolver response with high title confidence. -/
def metaHigh : PyVal :=
  PyVal.dict [("title", PyVal.dict [("main", PyVal.str "Emma")]),
              ("confidence", PyVal.dict [("title", PyVal.str "high")])]

/-- A sample resolver response with low title confidence. -/
def metaLow : PyVal :=
  PyVal.dict [("title", PyVal.dict [("main", PyVal.str "Emma")]),
              ("confidence", PyVal.dict [("title", PyVal.str "low")])]

/-- Unsafe characters for a file-system path segment on the target
platforms, following the spec's words: every path-separator character
(forward slash on POSIX, backslash on Windows) and the colon. -/
def unsafeSegmentChar (c : Char) : Bool :=
  c = '/' || c = '\\' || c = ':'

example : format_title_folder (PyVal.dict []) = Except.ok "Untitled" := rfl
example : organize_author_folder (PyVal.dict []) = Except.ok "," := rfl
example : format_title_folder (PyVal.dict [("title", PyVal.str "Emma")])
    = Except.error "AttributeError" := rfl
example : sanitize " a/b:c " = "a-b-c" := rfl

/-! ### Association-list (Python dict) lemmas -/

theorem dictLookup_insert_self (d : List (String × α)) (k : String) (v : α) :
    dictLookup (dictInsert d k v) k = Option.some v := by
  induction d with
  | nil => simp [dictInsert, dictLookup]
  | cons hd tl ih =>
    obtain ⟨k', v'⟩ := hd
    by_cases h : k' = k
    · simp [dictInsert, h, dictLookup]
    · simp [dictInsert, h, dictLookup, ih]

theorem dictLookup_insert_ne (d : List (String × α)) (k k' : String) (v : α)
    (h : k' ≠ k) :
    dictLookup (dictInsert d k v) k' = dictLookup d k' := by
  have hne : ¬k = k' := fun hh => h hh.symm
  induction d with
  | nil => simp [dictInsert, dictLookup, hne]
  | cons hd tl ih =>
    obtain ⟨k'', v''⟩ := hd
    by_cases hk : k'' = k
    · subst hk
      simp [dictInsert, dictLookup, hne]
    · simp [dictInsert, hk, dictLookup, ih]

theorem dictLookup_merge_of_not_mem (extra : List (String × PyVal))
    (base : List (String × PyVal)) (k : String)
    (h : k ∉ extra.map Prod.fst) :
    dictLookup (mergeExtra base extra) k = dictLookup base k := by
  induction extra generalizing base with
  | nil => rfl
  | cons hd tl ih =>
    simp only [List.map_cons, List.mem_cons, not_or] at h
    have step : mergeExtra base (hd :: tl) = mergeExtra (dictInsert base hd.1 hd.2) tl := rfl
    rw [step, ih _ h.2, dictLookup_insert_ne _ _ _ _ h.1]

theorem dictInsert_eq_append (d : List (String × α)) (k : String) (v : α)
    (h : k ∉ d.map Prod.fst) :
    dictInsert d k v = d ++ [(k, v)] := by
  induction d with
  | nil => rfl
  | cons hd tl ih =>
    simp only [List.map_cons, List.mem_cons, not_or] at h
    obtain ⟨k', v'⟩ := hd
    simp only [dictInsert]
    rw [if_neg (fun hh => h.1 hh.symm), ih h.2]
    rfl

theorem mergeExtra_eq_append (extra base : List (String × PyVal))
    (hdisj : ∀ k ∈ extra.map Prod.fst, k ∉ base.map Prod.fst)
    (hnd : (extra.map Prod.fst).Nodup) :
    mergeExtra base extra = base ++ extra := by
  induction extra generalizing base with
  | nil => simp [mergeExtra]
  | cons hd tl ih =>
    have step : mergeExtra base (hd :: tl) = mergeExtra (dictInsert base hd.1 hd.2) tl := rfl
    simp only [List.map_cons, List.nodup_cons] at hnd
    rw [step, dictInsert_eq_append _ _ _ (hdisj hd.1 (by simp))]
    rw [ih (base ++ [hd])]
    · simp
    · intro k hk
      simp only [List.map_append, List.mem_append, List.map_cons, List.map_nil,
        List.mem_singleton, not_or]
      constructor
      · exact hdisj k (by simp [hk])
      · intro hkk
        exact hnd.1 (hkk ▸ hk)
    · exact hnd.2

theorem dictLookup_append_left (a b : List (String × α)) (k : String) (v : α)
    (h : dictLookup a k = Option.some v) :
    dictLookup (a ++ b) k = Option.some v := by
  induction a with
  | nil => simp [dictLookup] at h
  | cons hd tl ih =>
    obtain ⟨k', v'⟩ := hd
    by_cases hk : k' = k
    · simp_all [dictLookup]
    · simp_all [dictLookup]

theorem dictLookup_append_right (a b : List (String × α)) (k : String)
    (h : dictLookup a k = Option.none) :
    dictLookup (a ++ b) k = dictLookup b k := by
  induction a with
  | nil => rfl
  | cons hd tl ih =>
    obtain ⟨k', v'⟩ := hd
    by_cases hk : k' = k
    · simp [dictLookup, hk] at h
    · simp_all [dictLookup]

theorem dictLookup_of_mem_nodup (l : List (String × α)) (k : String) (v : α)
    (hkv : (k, v) ∈ l) (hnd : (l.map Prod.fst).Nodup) :
    dictLookup l k = Option.some v := by
  induction l with
  | nil => simp at hkv
  | cons hd tl ih =>
    obtain ⟨k', v'⟩ := hd
    simp only [List.map_cons, List.nodup_cons] at hnd
    rcases List.mem_cons.1 hkv with heq | htl
    · injection heq with hh1 hh2
      subst hh1
      subst hh2
      simp [dictLookup]
    · have hk : k' ≠ k := by
        intro hkk
        subst hkk
        exact hnd.1 (by simpa using List.mem_map_of_mem Prod.fst htl)
      simp [dictLookup, hk, ih htl, hnd.2]

/-! ### Tracker lemmas -/

theorem get_status_mark_self (st : TrackerState) (p s now_iso : String)
    (extra : TrackerEntry) (h : "status" ∉ extra.map Prod.fst) :
    get_status (mark_status st p s now_iso extra).mem p = PyVal.str s := by
  simp only [mark_status, get_status, dictLookup_insert_self]
  rw [dictLookup_merge_of_not_mem _ _ _ h]
  rfl

theorem get_status_mark_other (st : TrackerState) (p q s now_iso : String)
    (extra : TrackerEntry) (h : q ≠ p) :
    get_status (mark_status st p s now_iso extra).mem q = get_status st.mem q := by
  simp only [mark_status, get_status]
  rw [dictLookup_insert_ne _ _ _ _ h]

theorem decided_mark (st : TrackerState) (p q s now_iso : String) (extra : TrackerEntry)
    (hst : "status" ∉ extra.map Prod.fst)
    (hs : decided (PyVal.str s) = true)
    (hd : q ≠ p → decided (get_status st.mem q) = true) :
    decided (get_status (mark_status st p s now_iso extra).mem q) = true := by
  by_cases h : q = p
  · subst h
    rw [get_status_mark_self _ _ _ _ _ hst]
    exact hs
  · rw [get_status_mark_other _ _ _ _ _ _ h]
    exact hd h

/-! ### Orchestrator step lemmas -/

theorem main_step_decided (resolver : String → PyVal) (dry_run : Bool)
    (now_iso output_path : String) (st : TrackerState) (b : Book)
    (hf : b.force = false) (hd : decided (get_status st.mem b.relpath) = true) :
    main_step resolver dry_run now_iso output_path st b = ⟨st, emptyEffects, Option.none⟩ := by
  cases hp : pyEqStr (get_status st.mem b.relpath) "processed" with
  | true => simp [main_step, hf, hp]
  | false =>
    have hs : pyEqStr (get_status st.mem b.relpath) "skipped" = true := by
      simp only [decided, hp, Bool.false_or] at hd
      exact hd
    simp [main_step, hf, hp, hs]

theorem main_step_status_cases (resolver : String → PyVal) (dry_run : Bool)
    (now_iso output_path : String) (st : TrackerState) (b : Book) (p : String) :
    get_status (main_step resolver dry_run now_iso output_path st b).st.mem p
      = get_status st.mem p ∨
    get_status (main_step resolver dry_run now_iso output_path st b).st.mem p
      = PyVal.str "skipped" ∨
    get_status (main_step resolver dry_run now_iso output_path st b).st.mem p
      = PyVal.str "processed" := by
  by_cases hp : p = b.relpath
  · subst hp
    simp only [main_step]
    split
    · exact Or.inl rfl
    · split
      · exact Or.inl rfl
      · split
        · exact Or.inr (Or.inl (get_status_mark_self _ _ _ _ _ (by simp)))
        · split
          · exact Or.inl rfl
          · split
            · exact Or.inr (Or.inl (get_status_mark_self _ _ _ _ _ (by simp)))
            · split
              · exact Or.inl rfl
              · split
                · exact Or.inl rfl
                · exact Or.inr (Or.inr (get_status_mark_self _ _ _ _ _ (by simp)))
  · left
    simp only [main_step]
    split
    · rfl
    · split
      · rfl
      · split
        · exact get_status_mark_other _ _ _ _ _ _ hp
        · split
          · rfl
          · split
            · exact get_status_mark_other _ _ _ _ _ _ hp
            · split
              · rfl
              · split
                · rfl
                · exact get_status_mark_other _ _ _ _ _ _ hp

theorem main_step_preserves_decided (resolver : String → PyVal) (dry_run : Bool)
    (now_iso output_path : String) (st : TrackerState) (b : Book) (p : String)
    (hd : decided (get_status st.mem p) = true) :
    decided (get_status (main_step resolver dry_run now_iso output_path st b).st.mem p)
      = true := by
  rcases main_step_status_cases resolver dry_run now_iso output_path st b p with h | h | h
  · rw [h]; exact hd
  · rw [h]; decide
  · rw [h]; decide

theorem main_step_dry (resolver : String → PyVal) (now_iso output_path : String)
    (st : TrackerState) (b : Book) (p : String) :
    (main_step resolver true now_iso output_path st b).eff.organized = [] ∧
    (∀ pr ∈ (main_step resolver true now_iso output_path st b).eff.marked,
      pr.2 = "skipped") ∧
    (get_status (main_step resolver true now_iso output_path st b).st.mem p
        = get_status st.mem p ∨
      get_status (main_step resolver true now_iso output_path st b).st.mem p
        = PyVal.str "skipped") := by
  simp only [main_step]
  split
  · exact ⟨rfl, by intro pr h; simp [emptyEffects] at h, Or.inl rfl⟩
  · split
    · exact ⟨rfl, by intro pr h; simp [emptyEffects] at h, Or.inl rfl⟩
    · split
      · refine ⟨rfl, ?_, ?_⟩
        · intro pr h
          simp only [List.mem_singleton] at h
          rw [h]
        · by_cases hp : p = b.relpath
          · subst hp
            exact Or.inr (get_status_mark_self _ _ _ _ _ (by simp))
          · exact Or.inl (get_status_mark_other _ _ _ _ _ _ hp)
      · split
        · exact ⟨rfl, by intro pr h; simp at h, Or.inl rfl⟩
        · split
          · refine ⟨rfl, ?_, ?_⟩
            · intro pr h
              simp only [List.mem_singleton] at h
              rw [h]
            · by_cases hp : p = b.relpath
              · subst hp
                exact Or.inr (get_status_mark_self _ _ _ _ _ (by simp))
              · exact Or.inl (get_status_mark_other _ _ _ _ _ _ hp)
          · split
            · exact ⟨rfl, by intro pr h; simp at h, Or.inl rfl⟩
            · split
              · exact absurd trivial (by assumption)
              · exact absurd trivial (by assumption)

theorem main_step_live_decides (resolver : String → PyVal)
    (now_iso output_path : String) (st : TrackerState) (b : Book)
    (hf : b.force = false) :
    (main_step resolver false now_iso output_path st b).err ≠ Option.none ∨
    decided (get_status (main_step resolver false now_iso output_path st b).st.mem
      b.relpath) = true := by
  simp only [main_step]
  split
  · rename_i hc
    right
    simp only [hf, Bool.not_false, Bool.true_and] at hc
    simp [decided, hc]
  · split
    · rename_i hc
      right
      simp only [hf, Bool.not_false, Bool.true_and] at hc
      simp [decided, hc]
    · split
      · right
        rw [get_status_mark_self _ _ _ _ _ (by simp)]
        decide
      · split
        · left
          simp
        · split
          · right
            rw [get_status_mark_self _ _ _ _ _ (by simp)]
            decide
          · split
            · rename_i hdry
              exact absurd hdry (by simp)
            · split
              · left
                simp
              · right
                rw [get_status_mark_self _ _ _ _ _ (by simp)]
                decide

/-! ### Orchestrator run lemmas -/

theorem main_run_dry (resolver : String → PyVal) (now_iso output_path : String)
    (st : TrackerState) (books : List Book) (p : String) :
    (main_run resolver true now_iso output_path st books).eff.organized = [] ∧
    (∀ pr ∈ (main_run resolver true now_iso output_path st books).eff.marked,
      pr.2 = "skipped") ∧
    (get_status (main_run resolver true now_iso output_path st books).st.mem p
        = get_status st.mem p ∨
      get_status (main_run resolver true now_iso output_path st books).st.mem p
        = PyVal.str "skipped") := by
  induction books generalizing st with
  | nil =>
    exact ⟨rfl, by intro pr h; simp [main_run, emptyEffects] at h, Or.inl rfl⟩
  | cons b rest ih =>
    obtain ⟨ho1, ho2, ho3⟩ := main_step_dry resolver now_iso output_path st b p
    cases ho : (main_step resolver true now_iso output_path st b).err with
    | some e =>
      simp only [main_run, ho]
      exact ⟨ho1, ho2, ho3⟩
    | none =>
      obtain ⟨ih1, ih2, ih3⟩ := ih (main_step resolver true now_iso output_path st b).st
      simp only [main_run, ho]
      refine ⟨?_, ?_, ?_⟩
      · simp [effApp, ho1, ih1]
      · intro pr h
        simp only [effApp, List.mem_append] at h
        rcases h with h | h
        · exact ho2 pr h
        · exact ih2 pr h
      · rcases ih3 with h | h
        · rw [h]
          exact ho3
        · exact Or.inr h

theorem main_run_preserves_decided (resolver : String → PyVal) (dry_run : Bool)
    (now_iso output_path : String) (st : TrackerState) (books : List Book) (p : String)
    (hd : decided (get_status st.mem p) = true) :
    decided (get_status (main_run resolver dry_run now_iso output_path st books).st.mem p)
      = true := by
  induction books generalizing st with
  | nil => exact hd
  | cons b rest ih =>
    have hstep := main_step_preserves_decided resolver dry_run now_iso output_path st b p hd
    cases ho : (main_step resolver dry_run now_iso output_path st b).err with
    | some e =>
      simp only [main_run, ho]
      exact hstep
    | none =>
      simp only [main_run, ho]
      exact ih _ hstep

theorem main_run_live_decides (resolver : String → PyVal)
    (now_iso output_path : String) (st : TrackerState) (books : List Book)
    (hforce : ∀ b ∈ books, b.force = false)
    (herr : (main_run resolver false now_iso output_path st books).err = Option.none) :
    ∀ b ∈ books,
      decided (get_status (main_run resolver false now_iso output_path st books).st.mem
        b.relpath) = true := by
  induction books generalizing st with
  | nil =>
    intro b hb
    simp at hb
  | cons b rest ih =>
    intro b' hb'
    cases ho : (main_step resolver false now_iso output_path st b).err with
    | some e =>
      simp only [main_run, ho] at herr
      exact absurd herr (by simp)
    | none =>
      simp only [main_run, ho] at herr ⊢
      rcases List.mem_cons.1 hb' with heq | hmem
      · subst heq
        rcases main_step_live_decides resolver now_iso output_path st b'
            (hforce b' (by simp)) with hbad | hdec
        · exact absurd ho hbad
        · exact main_run_preserves_decided resolver false now_iso output_path _ rest
            b'.relpath hdec
      · exact ih _ (fun x hx => hforce x (List.mem_cons_of_mem _ hx)) herr b' hmem

theorem main_run_noop (resolver : String → PyVal) (dry_run : Bool)
    (now_iso output_path : String) (st : TrackerState) (books : List Book)
    (hforce : ∀ b ∈ books, b.force = false)
    (hdec : ∀ b ∈ books, decided (get_status st.mem b.relpath) = true) :
    main_run resolver dry_run now_iso output_path st books
      = ⟨st, emptyEffects, Option.none⟩ := by
  induction books with
  | nil => rfl
  | cons b rest ih =>
    have hstep := main_step_decided resolver dry_run now_iso output_path st b
      (hforce b (by simp)) (hdec b (by simp))
    simp only [main_run, hstep]
    rw [ih (fun x hx => hforce x (List.mem_cons_of_mem _ hx))
      (fun x hx => hdec x (List.mem_cons_of_mem _ hx))]
    rfl

/-! ### Sanitization lemmas -/

theorem head_dropWhile_false (p : α → Bool) (l : List α) (c : α)
    (h : (l.dropWhile p).head? = Option.some c) : p c = false := by
  induction l with
  | nil => simp [List.dropWhile] at h
  | cons a tl ih =>
    cases ha : p a with
    | true =>
      simp only [List.dropWhile, ha] at h
      exact ih h
    | false =>
      simp only [List.dropWhile, ha, List.head?_cons, Option.some.injEq] at h
      rw [← h]
      exact ha

theorem mem_of_mem_pyStripChars (l : List Char) (c : Char)
    (hc : c ∈ pyStripChars l) : c ∈ l := by
  unfold pyStripChars at hc
  rw [List.mem_reverse] at hc
  have h1 : c ∈ (l.dropWhile Char.isWhitespace).reverse :=
    (List.dropWhile_sublist _).subset hc
  rw [List.mem_reverse] at h1
  exact (List.dropWhile_sublist _).subset h1

theorem mem_replaceChar (a b : Char) (l : List Char) (c : Char)
    (hc : c ∈ replaceChar a b l) : c = b ∨ (c ∈ l ∧ c ≠ a) := by
  unfold replaceChar at hc
  rw [List.mem_map] at hc
  obtain ⟨x, hx, hxc⟩ := hc
  by_cases hxa : x = a
  · rw [hxa] at hxc
    simp at hxc
    exact Or.inl hxc.symm
  · rw [if_neg hxa] at hxc
    exact Or.inr ⟨hxc ▸ hx, hxc ▸ hxa⟩

theorem pyStripChars_head (l : List Char) (c : Char)
    (h : (pyStripChars l).head? = Option.some c) : c.isWhitespace = false := by
  unfold pyStripChars at h
  rw [List.head?_reverse] at h
  obtain ⟨t, ht⟩ := List.dropWhile_suffix
    (l := (l.dropWhile Char.isWhitespace).reverse) Char.isWhitespace
  have hlast : ((l.dropWhile Char.isWhitespace).reverse).getLast? = Option.some c := by
    rw [← ht, List.getLast?_append, h]
    rfl
  rw [List.getLast?_reverse] at hlast
  exact head_dropWhile_false _ _ _ hlast

theorem pyStripChars_getLast (l : List Char) (c : Char)
    (h : (pyStripChars l).getLast? = Option.some c) : c.isWhitespace = false := by
  unfold pyStripChars at h
  rw [List.getLast?_reverse] at h
  exact head_dropWhile_false _ _ _ h

/-! ### Scanner lemmas -/

theorem scan_mem_iff (dirs : List (String × List String)) (root : String)
    (files : List String)
    (hnd : (dirs.map Prod.fst).Nodup) (hmem : (root, files) ∈ dirs) :
    (∃ r ∈ scan_input_directory dirs, r.relative_path = root) ↔
      ∃ f ∈ files, is_audio_file f = true := by
  constructor
  · rintro ⟨r, hr, hroot⟩
    rw [scan_input_directory, List.mem_filterMap] at hr
    obtain ⟨d, hd, hfd⟩ := hr
    by_cases he : (d.2.filter is_audio_file).isEmpty
    · simp [he] at hfd
    · rw [if_neg he] at hfd
      injection hfd with hfd'
      have hd1 : d.1 = root := by rw [← hroot, ← hfd']
      have hlook1 : dictLookup dirs root = Option.some files :=
        dictLookup_of_mem_nodup dirs root files hmem hnd
      have hlook2 : dictLookup dirs root = Option.some d.2 := by
        rw [← hd1]
        exact dictLookup_of_mem_nodup dirs d.1 d.2 (by simpa using hd) hnd
      have hfiles : d.2 = files := by
        rw [hlook1] at hlook2
        injection hlook2 with h2
        exact h2.symm
      rw [Bool.not_eq_true, List.isEmpty_eq_false] at he
      cases hfl : d.2.filter is_audio_file with
      | nil => exact absurd hfl he
      | cons f rest =>
        have hfmem : f ∈ d.2.filter is_audio_file := by
          rw [hfl]
          exact List.mem_cons_self f rest
        rw [List.mem_filter] at hfmem
        exact ⟨f, hfiles ▸ hfmem.1, hfmem.2⟩
  · rintro ⟨f, hf, haudio⟩
    have hne : files.filter is_audio_file ≠ [] := by
      intro hnil
      rw [List.filter_eq_nil_iff] at hnil
      exact hnil f hf haudio
    refine ⟨⟨root, sortStrings files, files.filter is_audio_file⟩, ?_, rfl⟩
    rw [scan_input_directory, List.mem_filterMap]
    refine ⟨(root, files), hmem, ?_⟩
    rw [if_neg (by simpa using hne)]

theorem scan_record_audio (dirs : List (String × List String)) (r : ScanRecord)
    (hr : r ∈ scan_input_directory dirs) :
    r.audio_files ≠ [] ∧ ∀ f ∈ r.audio_files, is_audio_file f = true := by
  rw [scan_input_directory, List.mem_filterMap] at hr
  obtain ⟨d, _, hfd⟩ := hr
  by_cases he : (d.2.filter is_audio_file).isEmpty
  · simp [he] at hfd
  · rw [if_neg he] at hfd
    injection hfd with hfd'
    rw [Bool.not_eq_true, List.isEmpty_eq_false] at he
    constructor
    · rw [← hfd']
      exact he
    · intro f hf
      rw [← hfd'] at hf
      simp only [List.mem_filter] at hf
      exact hf.2

/-! ### Claim theorems -/

/-- C1 counterexample: for the empty metadata document the author segment
computed by organize_book is the string ",", not "Unknown, " — the empty
last/first fields render as ", " and strip leaves ",". -/
theorem C1_counterexample :
    organize_author_folder (PyVal.dict []) = Except.ok "," ∧
    ("," : String) ≠ "Unknown, " := by
  refine ⟨rfl, ?_⟩
  decide

/-- C1 amended: for the empty metadata document the synthesized path
components are non-empty — the author segment is the string "," and the
title segment is "Untitled"; the full target path is never empty. -/
theorem C1_amended :
    organize_author_folder (PyVal.dict []) = Except.ok "," ∧
    ("," : String) ≠ "" ∧
    format_title_folder (PyVal.dict []) = Except.ok "Untitled" ∧
    ("Untitled" : String) ≠ "" ∧
    organize_book_target "/data/output" (PyVal.dict [])
      = Except.ok "/data/output/,/Untitled" := by
  refine ⟨rfl, by decide, rfl, by decide, rfl⟩

/-- C4: a plain-string title makes format_title_folder raise AttributeError,
because meta.get("title", dict()).get("main") calls .get on the string;
only structured titles succeed.  This contradicts the documented shape
"title: either a string or a structure" and the evident intent of the
"or meta.get('title')" fallback, so the code, not the claim, is wrong. -/
theorem C4_string_title_raises :
    format_title_folder (PyVal.dict [("title", PyVal.str "Emma")])
      = Except.error "AttributeError" ∧
    format_title_folder (PyVal.dict [("title", PyVal.dict [("main", PyVal.str "Emma")])])
      = Except.ok "Emma" := ⟨rfl, rfl⟩

/-- C5 counterexample: sanitize does not substitute the backslash, an
unsafe path-separator character, so its output can contain one. -/
theorem C5_counterexample :
    '\\' ∈ (sanitize "a\\b").data ∧ unsafeSegmentChar '\\' = true := by
  refine ⟨?_, by decide⟩
  decide

/-- C5 amended: sanitize strips leading/trailing whitespace and replaces
every forward slash and every colon with a hyphen, so its output contains
neither; other unsafe characters such as the backslash are passed through
unchanged. -/
theorem C5_amended (s : String) (c d e : Char)
    (hc : c ∈ (sanitize s).data)
    (hd : (sanitize s).data.head? = Option.some d)
    (he : (sanitize s).data.getLast? = Option.some e) :
    c ≠ '/' ∧ c ≠ ':' ∧ d.isWhitespace = false ∧ e.isWhitespace = false := by
  refine ⟨?_, ?_, pyStripChars_head _ _ hd, pyStripChars_getLast _ _ he⟩
  all_goals
    have hc1 : c ∈ replaceChar ':' '-' (replaceChar '/' '-' s.data) :=
      mem_of_mem_pyStripChars _ _ hc
  · rcases mem_replaceChar _ _ _ _ hc1 with h | ⟨h2, _⟩
    · rw [h]; decide
    · rcases mem_replaceChar _ _ _ _ h2 with h | ⟨_, hne2⟩
      · rw [h]; decide
      · exact hne2
  · rcases mem_replaceChar _ _ _ _ hc1 with h | ⟨_, hne⟩
    · rw [h]; decide
    · exact hne

/-- C5 witness: a concrete instantiation of the amended sanitization
property at the input " a/b:c ". -/
theorem C5_amended_witness :
    ('a' : Char) ≠ '/' ∧ ('a' : Char) ≠ ':' ∧
    Char.isWhitespace 'a' = false ∧ Char.isWhitespace 'c' = false :=
  C5_amended " a/b:c " 'a' 'a' 'c' (by decide) (by decide) (by decide)

/-- C6 counterexample: mark_status splats the extra metadata after the
literal status key, so an extra-fields dictionary containing "status"
overwrites the given status — the entry does not hold the given status for
every extra-fields dictionary. -/
theorem C6_counterexample :
    get_status (mark_status ⟨[], []⟩ "book" "processed" "2024-01-01T00:00:00"
      [("status", PyVal.str "skipped")]).mem "book" = PyVal.str "skipped" ∧
    PyVal.str "skipped" ≠ PyVal.str "processed" := by
  refine ⟨rfl, ?_⟩
  intro h
  injection h with h'
  exact absurd h' (by decide)

/-- C6 amended: provided the extra-fields dictionary has distinct keys and
does not itself contain "status" or "timestamp", mark_status stores exactly
the given status (get_status returns it), the timestamp built from the
supplied clock reading with the "Z" suffix, and every extra field, and the
whole tracker is persisted immediately (write-through: disk equals
memory). -/
theorem C6_amended (st : TrackerState) (p s now_iso : String) (extra : TrackerEntry)
    (k : String) (v : PyVal)
    (h1 : "status" ∉ extra.map Prod.fst)
    (h2 : "timestamp" ∉ extra.map Prod.fst)
    (h3 : (extra.map Prod.fst).Nodup)
    (hkv : (k, v) ∈ extra) :
    get_status (mark_status st p s now_iso extra).mem p = PyVal.str s ∧
    trackerField (mark_status st p s now_iso extra).mem p "timestamp"
      = Option.some (PyVal.str (now_iso ++ "Z")) ∧
    trackerField (mark_status st p s now_iso extra).mem p k = Option.some v ∧
    (mark_status st p s now_iso extra).disk = (mark_status st p s now_iso extra).mem := by
  have hkkeys : k ∈ extra.map Prod.fst := by
    simpa using List.mem_map_of_mem Prod.fst hkv
  have hk1 : k ≠ "status" := fun hh => h1 (hh ▸ hkkeys)
  have hk2 : k ≠ "timestamp" := fun hh => h2 (hh ▸ hkkeys)
  refine ⟨get_status_mark_self st p s now_iso extra h1, ?_, ?_, rfl⟩
  · simp only [mark_status, trackerField, dictLookup_insert_self]
    rw [dictLookup_merge_of_not_mem _ _ _ h2]
    rfl
  · simp only [mark_status, trackerField, dictLookup_insert_self]
    rw [mergeExtra_eq_append extra _ ?_ h3]
    · rw [dictLookup_append_right _ _ _ ?_]
      · exact dictLookup_of_mem_nodup extra k v hkv h3
      · simp [dictLookup, Ne.symm hk1, Ne.symm hk2]
    · intro k' hk'
      have hA : k' ≠ "status" := fun hh => h1 (hh ▸ hk')
      have hB : k' ≠ "timestamp" := fun hh => h2 (hh ▸ hk')
      simp [hA, hB]

/-- C6 witness: a concrete instantiation of the amended mark_status
property, marking one folder skipped with a reason field. -/
theorem C6_amended_witness :
    get_status (mark_status ⟨[], []⟩ "b" "skipped" "T"
      [("reason", PyVal.str "no metadata")]).mem "b" = PyVal.str "skipped" ∧
    trackerField (mark_status ⟨[], []⟩ "b" "skipped" "T"
      [("reason", PyVal.str "no metadata")]).mem "b" "timestamp"
      = Option.some (PyVal.str ("T" ++ "Z")) ∧
    trackerField (mark_status ⟨[], []⟩ "b" "skipped" "T"
      [("reason", PyVal.str "no metadata")]).mem "b" "reason"
      = Option.some (PyVal.str "no metadata") ∧
    (mark_status ⟨[], []⟩ "b" "skipped" "T"
      [("reason", PyVal.str "no metadata")]).disk
      = (mark_status ⟨[], []⟩ "b" "skipped" "T"
        [("reason", PyVal.str "no metadata")]).mem :=
  C6_amended ⟨[], []⟩ "b" "skipped" "T" [("reason", PyVal.str "no metadata")]
    "reason" (PyVal.str "no metadata") (by decide) (by decide) (by decide)
    (List.mem_singleton.mpr rfl)

/-- C2 counterexample: with the dry-run flag enabled, a folder whose
resolver result is empty is still marked skipped — the tracker mapping and
its persisted document are mutated during a dry run. -/
theorem C2_counterexample :
    (main_run (fun _ => PyVal.dict []) true "T" "/data/output" ⟨[], []⟩
      [⟨"Author/BookA", false⟩]).st.mem ≠ ([] : Tracker) ∧
    get_status (main_run (fun _ => PyVal.dict []) true "T" "/data/output" ⟨[], []⟩
      [⟨"Author/BookA", false⟩]).st.mem "Author/BookA" = PyVal.str "skipped" ∧
    (main_run (fun _ => PyVal.dict []) true "T" "/data/output" ⟨[], []⟩
      [⟨"Author/BookA", false⟩]).st.disk ≠ ([] : Tracker) := by
  refine ⟨?_, rfl, ?_⟩
  · intro h
    have hc : (main_run (fun _ => PyVal.dict []) true "T" "/data/output" ⟨[], []⟩
        [⟨"Author/BookA", false⟩]).st.mem
        = [("Author/BookA",
            [("status", PyVal.str "skipped"), ("timestamp", PyVal.str "TZ"),
             ("reason", PyVal.str "no metadata")])] := rfl
    rw [hc] at h
    simp at h
  · intro h
    have hc : (main_run (fun _ => PyVal.dict []) true "T" "/data/output" ⟨[], []⟩
        [⟨"Author/BookA", false⟩]).st.disk
        = [("Author/BookA",
            [("status", PyVal.str "skipped"), ("timestamp", PyVal.str "TZ"),
             ("reason", PyVal.str "no metadata")])] := rfl
    rw [hc] at h
    simp at h

/-- C2 amended: when the dry-run flag is enabled a run performs no
filesystem mutation (organize_book is never invoked) and never records a
processed status — every mark_status call records "skipped", and every
tracker entry is either untouched or set to skipped; but the no-metadata
and low-confidence skip decisions do still mutate the tracker. -/
theorem C2_amended (resolver : String → PyVal) (now_iso output_path : String)
    (st : TrackerState) (books : List Book) (p s q : String)
    (hm : (p, s) ∈ (main_run resolver true now_iso output_path st books).eff.marked) :
    (main_run resolver true now_iso output_path st books).eff.organized = [] ∧
    s = "skipped" ∧
    (get_status (main_run resolver true now_iso output_path st books).st.mem q
        = get_status st.mem q ∨
      get_status (main_run resolver true now_iso output_path st books).st.mem q
        = PyVal.str "skipped") := by
  obtain ⟨h1, h2, h3⟩ := main_run_dry resolver now_iso output_path st books q
  exact ⟨h1, h2 (p, s) hm, h3⟩

/-- C2 witness: a concrete instantiation of the amended dry-run property at
a one-folder tree whose resolver result is empty. -/
theorem C2_amended_witness :
    (main_run (fun _ => PyVal.dict []) true "T" "/data/output" ⟨[], []⟩
      [⟨"b", false⟩]).eff.organized = [] ∧
    ("skipped" : String) = "skipped" ∧
    (get_status (main_run (fun _ => PyVal.dict []) true "T" "/data/output" ⟨[], []⟩
        [⟨"b", false⟩]).st.mem "b"
        = get_status (⟨[], []⟩ : TrackerState).mem "b" ∨
      get_status (main_run (fun _ => PyVal.dict []) true "T" "/data/output" ⟨[], []⟩
        [⟨"b", false⟩]).st.mem "b"
        = PyVal.str "skipped") :=
  C2_amended (fun _ => PyVal.dict []) "T" "/data/output" ⟨[], []⟩
    [⟨"b", false⟩] "b" "skipped" "b" (by decide)

/-- C3: for a non-empty metadata document whose confidence.title reads as
"low" (present as "low" or absent, the default), a folder without the force
marker is never organized and never marked processed by its step; when the
folder is not already decided it is marked skipped with the observed
confidence value recorded under ai_confidence. -/
theorem C3_confidence_gate (resolver : String → PyVal) (dry_run : Bool)
    (now_iso output_path : String) (st : TrackerState) (b : Book)
    (hf : b.force = false)
    (ht : truthy (resolver b.relpath) = true)
    (hc : confTitle (resolver b.relpath) = Except.ok (PyVal.str "low")) :
    (main_step resolver dry_run now_iso output_path st b).eff.organized = [] ∧
    (main_step resolver dry_run now_iso output_path st b).err = Option.none ∧
    (∀ pr ∈ (main_step resolver dry_run now_iso output_path st b).eff.marked,
      pr.2 = "skipped") ∧
    (decided (get_status st.mem b.relpath) = false →
      get_status (main_step resolver dry_run now_iso output_path st b).st.mem b.relpath
        = PyVal.str "skipped" ∧
      trackerField (main_step resolver dry_run now_iso output_path st b).st.mem
        b.relpath "ai_confidence" = Option.some (PyVal.str "low")) := by
  simp only [main_step]
  split
  · rename_i hc1
    simp only [hf, Bool.not_false, Bool.true_and] at hc1
    refine ⟨rfl, rfl, ?_, ?_⟩
    · intro pr h
      simp [emptyEffects] at h
    · intro hdec
      simp [decided, hc1] at hdec
  · split
    · rename_i hc2
      simp only [hf, Bool.not_false, Bool.true_and] at hc2
      refine ⟨rfl, rfl, ?_, ?_⟩
      · intro pr h
        simp [emptyEffects] at h
      · intro hdec
        simp [decided, hc2] at hdec
    · simp only [ht, Bool.not_true, hc]
      rw [if_neg (by decide)]
      have hgate : (!b.force
          && !(pyEqStr (PyVal.str "low") "high" || pyEqStr (PyVal.str "low") "very_high"))
          = true := by
        rw [hf]
        rfl
      rw [if_pos hgate]
      refine ⟨rfl, rfl, ?_, ?_⟩
      · intro pr h
        simp only [List.mem_singleton] at h
        rw [h]
      · intro _
        refine ⟨get_status_mark_self _ _ _ _ _ (by simp), ?_⟩
        simp only [mark_status, trackerField, dictLookup_insert_self]
        rfl

/-- C3 witness: a concrete instantiation of the confidence gate at a
one-folder tree with a low-confidence document and an empty tracker. -/
theorem C3_confidence_gate_witness :
    (main_step (fun _ => metaLow) false "T" "/data/output" ⟨[], []⟩
      ⟨"b", false⟩).eff.organized = [] ∧
    (main_step (fun _ => metaLow) false "T" "/data/output" ⟨[], []⟩
      ⟨"b", false⟩).err = Option.none ∧
    (∀ pr ∈ (main_step (fun _ => metaLow) false "T" "/data/output" ⟨[], []⟩
      ⟨"b", false⟩).eff.marked, pr.2 = "skipped") ∧
    (decided (get_status (⟨[], []⟩ : TrackerState).mem "b") = false →
      get_status (main_step (fun _ => metaLow) false "T" "/data/output" ⟨[], []⟩
        ⟨"b", false⟩).st.mem "b" = PyVal.str "skipped" ∧
      trackerField (main_step (fun _ => metaLow) false "T" "/data/output" ⟨[], []⟩
        ⟨"b", false⟩).st.mem "b" "ai_confidence"
        = Option.some (PyVal.str "low")) :=
  C3_confidence_gate (fun _ => metaLow) false "T" "/data/output" ⟨[], []⟩
    ⟨"b", false⟩ rfl rfl rfl

/-- The code's audio test agrees with the spec's extension-set reading. -/
theorem is_audio_file_iff (f : String) :
    is_audio_file f = true ↔ hasAudioExtension f := by
  simp [is_audio_file, hasAudioExtension, audio_extensions, List.any_eq_true]

/-- C7: idempotence — after a live, force-free run that finished without an
uncaught exception, a second live run over the same folders with the same
resolver responses leaves the tracker state unchanged and has no effects at
all: no resolver call, no organize call, no mark_status call. -/
theorem C7_idempotent (resolver : String → PyVal) (now1 now2 output_path : String)
    (st0 : TrackerState) (books : List Book)
    (hforce : ∀ b ∈ books, b.force = false)
    (h1 : (main_run resolver false now1 output_path st0 books).err = Option.none) :
    main_run resolver false now2 output_path
        (main_run resolver false now1 output_path st0 books).st books
      = ⟨(main_run resolver false now1 output_path st0 books).st, emptyEffects,
         Option.none⟩ :=
  main_run_noop resolver false now2 output_path _ books hforce
    (main_run_live_decides resolver now1 output_path st0 books hforce h1)

/-- C7 witness: a concrete instantiation of idempotence at a one-folder
tree with a high-confidence resolver response. -/
theorem C7_idempotent_witness :
    main_run (fun _ => metaHigh) false "T2" "/data/output"
        (main_run (fun _ => metaHigh) false "T1" "/data/output" ⟨[], []⟩
          [⟨"a", false⟩]).st [⟨"a", false⟩]
      = ⟨(main_run (fun _ => metaHigh) false "T1" "/data/output" ⟨[], []⟩
          [⟨"a", false⟩]).st, emptyEffects, Option.none⟩ :=
  C7_idempotent (fun _ => metaHigh) "T1" "T2" "/data/output" ⟨[], []⟩
    [⟨"a", false⟩]
    (by
      intro b hb
      rw [List.mem_singleton] at hb
      subst hb
      rfl)
    rfl

/-- C8: the force marker bypasses both gates — whatever the tracker holds
for the folder, a forced folder's step invokes the resolver again, and in
live mode a truthy metadata document is passed to organize_book whatever
its confidence.title value is. -/
theorem C8_force_override (resolver : String → PyVal)
    (now_iso output_path : String) (st : TrackerState) (b : Book) (c : PyVal)
    (hf : b.force = true)
    (ht : truthy (resolver b.relpath) = true)
    (hc : confTitle (resolver b.relpath) = Except.ok c) :
    (main_step resolver false now_iso output_path st b).eff.resolved = [b.relpath] ∧
    (main_step resolver false now_iso output_path st b).eff.organized = [b.relpath] := by
  cases horg : organize_book_target output_path (resolver b.relpath) with
  | error e => simp [main_step, hf, ht, hc, horg]
  | ok v => simp [main_step, hf, ht, hc, horg]

/-- C8 witness: a concrete instantiation of the force override at a folder
already recorded as skipped whose new document has low confidence. -/
theorem C8_force_override_witness :
    (main_step (fun _ => metaLow) false "T" "/data/output"
      ⟨[("a", [("status", PyVal.str "skipped")])], []⟩
      ⟨"a", true⟩).eff.resolved = ["a"] ∧
    (main_step (fun _ => metaLow) false "T" "/data/output"
      ⟨[("a", [("status", PyVal.str "skipped")])], []⟩
      ⟨"a", true⟩).eff.organized = ["a"] :=
  C8_force_override (fun _ => metaLow) "T" "/data/output"
    ⟨[("a", [("status", PyVal.str "skipped")])], []⟩ ⟨"a", true⟩
    (PyVal.str "low") rfl rfl rfl

/-- C9 counterexample: a malformed response body that contains a brace and
evaluates successfully is returned by the resolver unchanged instead of
being normalized to the empty metadata result — here the body evals to a
truthy non-dict value, the orchestrator then raises on .get, and the folder
is not marked skipped. -/
theorem C9_counterexample :
    send_to_ai_and_get_metadata
        (fun t => if t = "\x7b1\x7d" then Except.ok (PyVal.set [PyVal.int 1])
                  else Except.error "SyntaxError")
        (Except.ok "\x7b1\x7d")
      = PyVal.set [PyVal.int 1] ∧
    PyVal.set [PyVal.int 1] ≠ PyVal.dict [] ∧
    truthy (PyVal.set [PyVal.int 1]) = true ∧
    (main_step (fun _ => PyVal.set [PyVal.int 1]) false "T" "/data/output"
      ⟨[], []⟩ ⟨"b", false⟩).err = Option.some "AttributeError" ∧
    (main_step (fun _ => PyVal.set [PyVal.int 1]) false "T" "/data/output"
      ⟨[], []⟩ ⟨"b", false⟩).st.mem = ([] : Tracker) := by
  refine ⟨rfl, ?_, rfl, rfl, rfl⟩
  intro h
  exact PyVal.noConfusion h

/-- C9 amended: every exception while posting, checking or decoding the
response, and every body whose eval raises or that lacks a brace, is
normalized to the empty metadata result; an empty result makes the
orchestrator mark the folder skipped with reason "no metadata", persist the
tracker, raise nothing, and continue with the remaining folders.  Only a
brace-containing body whose eval succeeds escapes this normalization. -/
theorem C9_amended (evalPy : String → Except String PyVal) (e t msg : String)
    (resolver : String → PyVal) (dry_run : Bool) (now_iso output_path : String)
    (st : TrackerState) (b : Book) (rest : List Book)
    (hev : evalPy t = Except.error msg)
    (hf : b.force = false)
    (hdec : decided (get_status st.mem b.relpath) = false)
    (hres : resolver b.relpath = PyVal.dict []) :
    send_to_ai_and_get_metadata evalPy (Except.error e) = PyVal.dict [] ∧
    send_to_ai_and_get_metadata evalPy (Except.ok t) = PyVal.dict [] ∧
    get_status (main_step resolver dry_run now_iso output_path st b).st.mem b.relpath
      = PyVal.str "skipped" ∧
    trackerField (main_step resolver dry_run now_iso output_path st b).st.mem
      b.relpath "reason" = Option.some (PyVal.str "no metadata") ∧
    (main_step resolver dry_run now_iso output_path st b).st.disk
      = (main_step resolver dry_run now_iso output_path st b).st.mem ∧
    (main_step resolver dry_run now_iso output_path st b).err = Option.none ∧
    main_run resolver dry_run now_iso output_path st (b :: rest)
      = ⟨(main_run resolver dry_run now_iso output_path
            (main_step resolver dry_run now_iso output_path st b).st rest).st,
         effApp (main_step resolver dry_run now_iso output_path st b).eff
           (main_run resolver dry_run now_iso output_path
             (main_step resolver dry_run now_iso output_path st b).st rest).eff,
         (main_run resolver dry_run now_iso output_path
           (main_step resolver dry_run now_iso output_path st b).st rest).err⟩ := by
  simp only [decided, Bool.or_eq_false_iff] at hdec
  have hstep : main_step resolver dry_run now_iso output_path st b
      = ⟨mark_status st b.relpath "skipped" now_iso
          [("reason", PyVal.str "no metadata")],
         ⟨[b.relpath], [], [(b.relpath, "skipped")]⟩, Option.none⟩ := by
    simp [main_step, hf, hdec.1, hdec.2, hres, truthy]
  refine ⟨rfl, ?_, ?_, ?_, ?_, ?_, ?_⟩
  · cases hb : hasBrace t <;> simp [send_to_ai_and_get_metadata, hb, hev]
  · rw [hstep]
    exact get_status_mark_self _ _ _ _ _ (by simp)
  · rw [hstep]
    simp only [mark_status, trackerField, dictLookup_insert_self]
    rfl
  · rw [hstep]
    rfl
  · rw [hstep]
  · simp [main_run, hstep]

/-- C9 witness: a concrete instantiation of the amended error-normalization
property with a timing-out request, a body whose eval raises, and a
one-folder tree whose resolver result is empty. -/
theorem C9_amended_witness :
    send_to_ai_and_get_metadata (fun _ => Except.error "SyntaxError")
      (Except.error "Timeout") = PyVal.dict [] ∧
    send_to_ai_and_get_metadata (fun _ => Except.error "SyntaxError")
      (Except.ok "\x7b1\x7d") = PyVal.dict [] ∧
    get_status (main_step (fun _ => PyVal.dict []) false "T" "/data/output"
      ⟨[], []⟩ ⟨"b", false⟩).st.mem "b" = PyVal.str "skipped" ∧
    trackerField (main_step (fun _ => PyVal.dict []) false "T" "/data/output"
      ⟨[], []⟩ ⟨"b", false⟩).st.mem "b" "reason"
      = Option.some (PyVal.str "no metadata") ∧
    (main_step (fun _ => PyVal.dict []) false "T" "/data/output"
      ⟨[], []⟩ ⟨"b", false⟩).st.disk
      = (main_step (fun _ => PyVal.dict []) false "T" "/data/output"
        ⟨[], []⟩ ⟨"b", false⟩).st.mem ∧
    (main_step (fun _ => PyVal.dict []) false "T" "/data/output"
      ⟨[], []⟩ ⟨"b", false⟩).err = Option.none ∧
    main_run (fun _ => PyVal.dict []) false "T" "/data/output" ⟨[], []⟩
        [⟨"b", false⟩]
      = ⟨(main_run (fun _ => PyVal.dict []) false "T" "/data/output"
            (main_step (fun _ => PyVal.dict []) false "T" "/data/output"
              ⟨[], []⟩ ⟨"b", false⟩).st []).st,
         effApp (main_step (fun _ => PyVal.dict []) false "T" "/data/output"
             ⟨[], []⟩ ⟨"b", false⟩).eff
           (main_run (fun _ => PyVal.dict []) false "T" "/data/output"
             (main_step (fun _ => PyVal.dict []) false "T" "/data/output"
               ⟨[], []⟩ ⟨"b", false⟩).st []).eff,
         (main_run (fun _ => PyVal.dict []) false "T" "/data/output"
           (main_step (fun _ => PyVal.dict []) false "T" "/data/output"
             ⟨[], []⟩ ⟨"b", false⟩).st []).err⟩ :=
  C9_amended (fun _ => Except.error "SyntaxError") "Timeout" "\x7b1\x7d"
    "SyntaxError" (fun _ => PyVal.dict []) false "T" "/data/output"
    ⟨[], []⟩ ⟨"b", false⟩ [] rfl rfl rfl rfl

/-- C10: the scanner yields a record for a directory exactly when the
directory directly contains a file whose lowercased name ends with one of
the fixed audio extensions, every yielded record's audio list is non-empty,
and every listed audio file passes that extension test. -/
theorem C10_scanner (dirs : List (String × List String)) (root : String)
    (files : List String) (r : ScanRecord) (f : String)
    (hnd : (dirs.map Prod.fst).Nodup) (hmem : (root, files) ∈ dirs)
    (hr : r ∈ scan_input_directory dirs) (hf : f ∈ r.audio_files) :
    ((∃ rec ∈ scan_input_directory dirs, rec.relative_path = root) ↔
      ∃ g ∈ files, hasAudioExtension g) ∧
    r.audio_files ≠ [] ∧ hasAudioExtension f := by
  have hconv : (∃ g ∈ files, is_audio_file g = true) ↔ ∃ g ∈ files, hasAudioExtension g :=
    exists_congr (fun g => and_congr_right (fun _ => is_audio_file_iff g))
  exact ⟨(scan_mem_iff dirs root files hnd hmem).trans hconv,
    (scan_record_audio dirs r hr).1,
    (is_audio_file_iff f).1 ((scan_record_audio dirs r hr).2 f hf)⟩

/-- C10 witness: a concrete instantiation of the scanner property at a tree
with one audio-bearing folder and one folder without audio files. -/
theorem C10_scanner_witness :
    ((∃ rec ∈ scan_input_directory
        [("A/B", ["ch1.MP3", "cover.jpg"]), ("C", ["notes.txt"])],
      rec.relative_path = "A/B") ↔
      ∃ g ∈ ["ch1.MP3", "cover.jpg"], hasAudioExtension g) ∧
    (⟨"A/B", ["ch1.MP3", "cover.jpg"], ["ch1.MP3"]⟩ : ScanRecord).audio_files ≠ [] ∧
    hasAudioExtension "ch1.MP3" :=
  C10_scanner [("A/B", ["ch1.MP3", "cover.jpg"]), ("C", ["notes.txt"])]
    "A/B" ["ch1.MP3", "cover.jpg"]
    ⟨"A/B", ["ch1.MP3", "cover.jpg"], ["ch1.MP3"]⟩ "ch1.MP3"
    (by decide) (by decide) (by decide) (by decide)
